import Mathlib

/-!
Shallow embedding of the SEI credit-score fetcher (`src/services/seiApi.ts`,
canonical "advanced credit scoring" module) and proofs of the spec's claims
about it.  JS numbers are modelled as exact rationals (`ℚ`), JS
`Math.round` as `⌊x + 1/2⌋`, strings as Lean strings with per-character
lower-casing, and each network fetch as a function of an explicit oracle
argument describing the provider's response.
-/

namespace SeiScore

/-- Per-character lower-casing of a string, modelling JS `toLowerCase()`
on the (ASCII) method names the scorer inspects. -/
def lowerData (s : String) : List Char := s.data.map Char.toLower

/-- Containment test: does `hay` contain `pat` as a contiguous
substring?  Models JS `String.prototype.includes`. -/
def strContains (hay : List Char) (pat : String) : Bool :=
  decide (pat.data <:+: hay)

/-! ## Address validation (`isValidSeiAddress`) -/

/-- Character class `[a-z0-9]` of the Bech32 regex. -/
def isBech32Char (c : Char) : Bool :=
  (decide ('a' ≤ c) && decide (c ≤ 'z')) || (decide ('0' ≤ c) && decide (c ≤ '9'))

/-- Character class `[a-fA-F0-9]` of the EVM regex. -/
def isHexChar (c : Char) : Bool :=
  (decide ('a' ≤ c) && decide (c ≤ 'f')) ||
  (decide ('A' ≤ c) && decide (c ≤ 'F')) ||
  (decide ('0' ≤ c) && decide (c ≤ '9'))

/-- The regex `^sei[a-z0-9]{39,59}$` from `isValidSeiAddress`. -/
def matchesBech32 (s : String) : Bool :=
  let cs := s.data
  decide (cs.take 3 = ['s', 'e', 'i']) &&
  decide (39 ≤ (cs.drop 3).length) &&
  decide ((cs.drop 3).length ≤ 59) &&
  (cs.drop 3).all isBech32Char

/-- The regex `^0x[a-fA-F0-9]{40}$` from `isValidSeiAddress`. -/
def matchesEvm (s : String) : Bool :=
  let cs := s.data
  decide (cs.take 2 = ['0', 'x']) &&
  decide ((cs.drop 2).length = 40) &&
  (cs.drop 2).all isHexChar

/-- Validation entry `isValidSeiAddress`: Bech32 or EVM format. -/
def isValidSeiAddress (s : String) : Bool :=
  matchesBech32 s || matchesEvm s

/-- JS `walletAddress.startsWith('0x')` (the branch guard of
`fetchWalletBalance`). -/
def startsWith0x (s : String) : Bool :=
  decide (s.data.take 2 = ['0', 'x'])

/-! ## Data model -/

/-- A transaction as the scorer sees it: hash, block height, and the
optional decoded `method` name (absent on raw REST-fallback results). -/
structure Tx where
  txhash : String
  height : Nat
  method : Option String
  deriving DecidableEq

/-- The facts `DeFiCreditScorer.calculate` gathers before scoring:
account age in days (`null` when no first transaction was found),
lifetime transaction count, native balance in whole SEI, the fetched
transaction list, and the number of unique counterparty addresses. -/
structure WalletFacts where
  daysOld : Option ℤ
  txCount : Nat
  balance : ℚ
  transactions : List Tx
  uniqueAddresses : Nat

/-! ## Sub-score functions (`DeFiCreditScorer`) -/

/-- Age sub-score `scoreAge`: days since first transaction, or null. -/
def scoreAge : Option ℤ → ℤ
  | none => -50
  | some days =>
    if days > 730 then 100
    else if days > 365 then 60
    else if days > 90 then 20
    else -30

/-- Activity sub-score `scoreTransactions`: lifetime transaction count. -/
def scoreTransactions (txCount : Nat) : ℤ :=
  if txCount > 2000 then 100
  else if txCount > 300 then 60
  else if txCount > 50 then 20
  else -20

/-- Balance sub-score `scoreBalance`: native balance in whole SEI. -/
def scoreBalance (seiBalance : ℚ) : ℤ :=
  if seiBalance > 5000 then 100
  else if seiBalance > 500 then 60
  else if seiBalance > 50 then 20
  else -30

/-- Lower-cased method name of a transaction, empty when absent. -/
def methodLower (tx : Tx) : List Char :=
  (tx.method.map (fun m => lowerData m)).getD []

/-- Does the transaction's lower-cased method name contain `pat`? -/
def methodHas (pat : String) (tx : Tx) : Bool :=
  strContains (methodLower tx) pat

/-- Repayment sub-score `scoreRepayment`: DeFi lending behaviour from
the transaction list. -/
def scoreRepayment (transactions : List Tx) : ℚ :=
  let defiTxs := transactions.filter fun tx =>
    methodHas "borrow" tx || methodHas "repay" tx ||
    methodHas "liquidat" tx || methodHas "lend" tx
  let borrowTxs := defiTxs.filter (methodHas "borrow")
  let repayTxs := defiTxs.filter (methodHas "repay")
  let liquidationTxs := defiTxs.filter (methodHas "liquidat")
  if borrowTxs.length = 0 then 0
  else
    let repaymentRatio : ℚ := (repayTxs.length : ℚ) / (borrowTxs.length : ℚ)
    let liquidationRatio : ℚ := (liquidationTxs.length : ℚ) / (borrowTxs.length : ℚ)
    if liquidationRatio = 0 ∧ repaymentRatio ≥ 0.8 then 100
    else if liquidationRatio < 0.1 ∧ repaymentRatio ≥ 0.6 then 60
    else if liquidationRatio < 0.25 then 0
    else max (-150) (-150 * liquidationRatio)

/-- Diversity sub-score `scoreDeFiExtras`: protocol diversity from
unique counterparties. -/
def scoreDeFiExtras (uniqueContracts : Nat) : ℤ :=
  if uniqueContracts > 25 then 30
  else if uniqueContracts > 10 then 10
  else 0

/-! ## Aggregation (`DeFiCreditScorer.calculate`) -/

/-- JS `Math.round`: round half towards `+∞`. -/
def jsRound (q : ℚ) : ℤ := ⌊q + 1/2⌋

/-- The weighted raw score: `BASE_SCORE` 500 plus the five weighted
sub-scores (weights 0.15 / 0.20 / 0.25 / 0.30 / 0.10). -/
def rawScore (f : WalletFacts) : ℚ :=
  500 +
  (scoreAge f.daysOld : ℚ) * 0.15 +
  (scoreTransactions f.txCount : ℚ) * 0.20 +
  (scoreBalance f.balance : ℚ) * 0.25 +
  scoreRepayment f.transactions * 0.30 +
  (scoreDeFiExtras f.uniqueAddresses : ℚ) * 0.10

/-- Final score: `Math.max(0, Math.min(1000, Math.round(rawScore)))`. -/
def finalScore (f : WalletFacts) : ℤ :=
  max 0 (min 1000 (jsRound (rawScore f)))

/-- Risk tier of the score report. -/
inductive Risk where
  | low
  | medium
  | high
  deriving DecidableEq

/-- Letter grade from the final score (checked high to low). -/
def gradeOf (score : ℤ) : String :=
  if score ≥ 850 then "A+"
  else if score ≥ 800 then "A"
  else if score ≥ 750 then "A-"
  else if score ≥ 700 then "B+"
  else if score ≥ 650 then "B"
  else if score ≥ 500 then "C"
  else if score ≥ 300 then "D"
  else "F"

/-- Risk tier from the final score (same branch structure as the grade). -/
def riskOf (score : ℤ) : Risk :=
  if score ≥ 850 then .low
  else if score ≥ 800 then .low
  else if score ≥ 750 then .low
  else if score ≥ 700 then .medium
  else if score ≥ 650 then .medium
  else if score ≥ 500 then .medium
  else if score ≥ 300 then .high
  else .high

/-- Accuracy heuristic: base 75, +10 if age known, +10 if any
transactions, +5 if positive balance, capped at 99. -/
def accuracyOf (f : WalletFacts) : ℤ :=
  min 99 (75 +
    (if f.daysOld.isSome then 10 else 0) +
    (if f.txCount > 0 then 10 else 0) +
    (if f.balance > 0 then 5 else 0))

/-- The part of the score report the claims are about. -/
structure ScoreReport where
  score : ℤ
  accuracy : ℤ
  grade : String
  riskLevel : Risk
  deriving DecidableEq

/-- Main scoring calculation `DeFiCreditScorer.calculate`, applied to
already-fetched facts. -/
def calculate (f : WalletFacts) : ScoreReport :=
  { score := finalScore f
    accuracy := accuracyOf f
    grade := gradeOf (finalScore f)
    riskLevel := riskOf (finalScore f) }

/-- Error taxonomy of the exported entry point. -/
inductive ScoreError where
  | invalidAddressFormat
  | scoringUnavailable
  deriving DecidableEq

/-- Exported entry `calculateCreditScore`: validation gate, then the
scorer on the fetched facts (passed explicitly, standing for the
network layer). -/
def calculateCreditScore (walletAddress : String) (fetched : WalletFacts) :
    Except ScoreError ScoreReport :=
  if isValidSeiAddress walletAddress then .ok (calculate fetched)
  else .error .invalidAddressFormat

/-! ## Balance fetching (`fetchWalletBalance` / `fetchEvmBalance`) -/

/-- Which upstream balance query a fetch issues. -/
inductive BalQuery where
  | evm
  | native
  deriving DecidableEq

/-- Oracle for the EVM JSON-RPC `eth_getBalance` call: `none` for a
failed request or RPC error, `some wei` for a successful hex result. -/
def EvmOracle := Option Nat

/-- Oracle for the Cosmos bank balances call: `none` for a failed
request, `some none` for a response with no `usei` entry, and
`some (some amt)` for a `usei` amount in micro-units. -/
def NativeOracle := Option (Option Nat)

/-- EVM balance fetch: wei divided by `10^18`; any failure is caught
and becomes `0`. -/
def fetchEvmBalance (evm : EvmOracle) : ℚ :=
  match evm with
  | none => 0
  | some wei => (wei : ℚ) / 10 ^ 18

/-- The native-chain (Cosmos bank) part of `fetchWalletBalance`:
`usei` amount divided by `10^6`, `0` on failure or absence. -/
def nativeBalance (native : NativeOracle) : ℚ :=
  match native with
  | none => 0
  | some none => 0
  | some (some amt) => (amt : ℚ) / 1000000

/-- Enhanced balance fetch `fetchWalletBalance`, returning the balance
together with the list of upstream queries issued, in order. -/
def fetchWalletBalance (walletAddress : String) (evm : EvmOracle)
    (native : NativeOracle) : ℚ × List BalQuery :=
  if startsWith0x walletAddress then
    let evmBalance := fetchEvmBalance evm
    if evmBalance > 0 then (evmBalance, [.evm])
    else (nativeBalance native, [.evm, .native])
  else (nativeBalance native, [.native])

/-! ## Transaction-list fallback tier (`fetchWalletTransactions`) -/

/-- One pass of the fallback loop body: a failed (or non-OK) query
leaves the accumulator unchanged; a successful one appends those of its
transactions whose hash is not already present in the accumulator. -/
def mergeStep (acc : List Tx) (result : Option (List Tx)) : List Tx :=
  match result with
  | none => acc
  | some txs =>
    if txs.length > 0 then
      acc ++ txs.filter fun tx => !(acc.any fun existing => existing.txhash == tx.txhash)
    else acc

/-- Height-descending comparison used by the final sort. -/
def heightDesc (a b : Tx) : Prop := b.height ≤ a.height

instance : DecidableRel heightDesc := fun a b => Nat.decLe b.height a.height

instance : IsTotal Tx heightDesc := ⟨fun a b => le_total b.height a.height⟩

instance : IsTrans Tx heightDesc := ⟨fun _ _ _ h h2 => le_trans h2 h⟩

/-- The fallback tier of `fetchWalletTransactions`: run the five
event-filter queries in order (each outcome given by the oracle list),
merge with cross-query dedup, sort by height descending, truncate. -/
def fallbackTransactions (results : List (Option (List Tx))) (limit : Nat) : List Tx :=
  ((results.foldl mergeStep []).insertionSort heightDesc).take limit

/-! ## Sub-score range lemmas -/

lemma scoreAge_mem (d : Option ℤ) :
    scoreAge d = -50 ∨ scoreAge d = 100 ∨ scoreAge d = 60 ∨
    scoreAge d = 20 ∨ scoreAge d = -30 := by
  cases d with
  | none => left; rfl
  | some days =>
    simp only [scoreAge]
    split
    · omega
    · split
      · omega
      · split <;> omega

lemma scoreAge_bounds (d : Option ℤ) : -50 ≤ scoreAge d ∧ scoreAge d ≤ 100 := by
  rcases scoreAge_mem d with h | h | h | h | h <;> rw [h] <;> omega

lemma scoreTransactions_bounds (n : Nat) :
    -20 ≤ scoreTransactions n ∧ scoreTransactions n ≤ 100 := by
  simp only [scoreTransactions]
  split
  · omega
  · split
    · omega
    · split <;> omega

lemma scoreBalance_bounds (b : ℚ) :
    -30 ≤ scoreBalance b ∧ scoreBalance b ≤ 100 := by
  simp only [scoreBalance]
  split
  · omega
  · split
    · omega
    · split <;> omega

lemma scoreDeFiExtras_bounds (n : Nat) :
    0 ≤ scoreDeFiExtras n ∧ scoreDeFiExtras n ≤ 30 := by
  simp only [scoreDeFiExtras]
  split
  · omega
  · split <;> omega

lemma scoreRepayment_bounds (txs : List Tx) :
    -150 ≤ scoreRepayment txs ∧ scoreRepayment txs ≤ 100 := by
  simp only [scoreRepayment]
  split
  · norm_num
  · rename_i hb
    set b := (List.filter (methodHas "borrow")
      (List.filter (fun tx => methodHas "borrow" tx || methodHas "repay" tx ||
        methodHas "liquidat" tx || methodHas "lend" tx) txs)).length with hbdef
    set l := (List.filter (methodHas "liquidat")
      (List.filter (fun tx => methodHas "borrow" tx || methodHas "repay" tx ||
        methodHas "liquidat" tx || methodHas "lend" tx) txs)).length with hldef
    have hliq_nonneg : (0 : ℚ) ≤ (l : ℚ) / (b : ℚ) := by positivity
    split
    · norm_num
    · split
      · norm_num
      · split
        · norm_num
        · constructor
          · exact le_max_left _ _
          · have h1 : (-150 : ℚ) * ((l : ℚ) / (b : ℚ)) ≤ 0 := by nlinarith
            have h2 : max (-150 : ℚ) (-150 * ((l : ℚ) / (b : ℚ))) ≤ 0 :=
              max_le (by norm_num) h1
            linarith

/-- The weighted raw score of every input lies in `[436, 593]`. -/
lemma rawScore_bounds (f : WalletFacts) :
    (436 : ℚ) ≤ rawScore f ∧ rawScore f ≤ 593 := by
  obtain ⟨a1, a2⟩ := scoreAge_bounds f.daysOld
  obtain ⟨t1, t2⟩ := scoreTransactions_bounds f.txCount
  obtain ⟨b1, b2⟩ := scoreBalance_bounds f.balance
  obtain ⟨r1, r2⟩ := scoreRepayment_bounds f.transactions
  obtain ⟨d1, d2⟩ := scoreDeFiExtras_bounds f.uniqueAddresses
  have a1q : (-50 : ℚ) ≤ (scoreAge f.daysOld : ℚ) := by exact_mod_cast a1
  have a2q : (scoreAge f.daysOld : ℚ) ≤ 100 := by exact_mod_cast a2
  have t1q : (-20 : ℚ) ≤ (scoreTransactions f.txCount : ℚ) := by exact_mod_cast t1
  have t2q : (scoreTransactions f.txCount : ℚ) ≤ 100 := by exact_mod_cast t2
  have b1q : (-30 : ℚ) ≤ (scoreBalance f.balance : ℚ) := by exact_mod_cast b1
  have b2q : (scoreBalance f.balance : ℚ) ≤ 100 := by exact_mod_cast b2
  have d1q : (0 : ℚ) ≤ (scoreDeFiExtras f.uniqueAddresses : ℚ) := by exact_mod_cast d1
  have d2q : (scoreDeFiExtras f.uniqueAddresses : ℚ) ≤ 30 := by exact_mod_cast d2
  unfold rawScore
  constructor <;> nlinarith

/-- The rounded raw score lies in `[436, 593]`, so the clamp is inert. -/
lemma jsRound_rawScore_bounds (f : WalletFacts) :
    (436 : ℤ) ≤ jsRound (rawScore f) ∧ jsRound (rawScore f) ≤ 593 := by
  obtain ⟨h1, h2⟩ := rawScore_bounds f
  unfold jsRound
  constructor
  · rw [Int.le_floor]
    push_cast
    linarith
  · have : jsRound (rawScore f) < 594 := by
      unfold jsRound
      rw [Int.floor_lt]
      push_cast
      linarith
    unfold jsRound at this
    omega

/-- On every input, `finalScore` is the plain rounded raw score: the
clamp to `[0, 1000]` never fires. -/
lemma finalScore_eq_jsRound (f : WalletFacts) :
    finalScore f = jsRound (rawScore f) := by
  obtain ⟨h1, h2⟩ := jsRound_rawScore_bounds f
  unfold finalScore
  omega

/-- Restatement of `scoreRepayment` in terms of the three classified
transaction counts (borrow, repay, liquidation); used to evaluate the
rational branch conditions on concrete inputs. -/
def repaymentFromCounts (B R L : Nat) : ℚ :=
  if B = 0 then 0
  else
    let repaymentRatio : ℚ := (R : ℚ) / (B : ℚ)
    let liquidationRatio : ℚ := (L : ℚ) / (B : ℚ)
    if liquidationRatio = 0 ∧ repaymentRatio ≥ 0.8 then 100
    else if liquidationRatio < 0.1 ∧ repaymentRatio ≥ 0.6 then 60
    else if liquidationRatio < 0.25 then 0
    else max (-150) (-150 * liquidationRatio)

/-- Predicate of the `defiTxs` filter in `scoreRepayment`. -/
def isDefiTx (tx : Tx) : Bool :=
  methodHas "borrow" tx || methodHas "repay" tx ||
  methodHas "liquidat" tx || methodHas "lend" tx

/-- Borrow-classified transaction count of `scoreRepayment`. -/
def borrowCount (txs : List Tx) : Nat :=
  ((txs.filter isDefiTx).filter (methodHas "borrow")).length

/-- Repay-classified transaction count of `scoreRepayment`. -/
def repayCount (txs : List Tx) : Nat :=
  ((txs.filter isDefiTx).filter (methodHas "repay")).length

/-- Liquidation-classified transaction count of `scoreRepayment`. -/
def liquidationCount (txs : List Tx) : Nat :=
  ((txs.filter isDefiTx).filter (methodHas "liquidat")).length

lemma scoreRepayment_eq_counts (txs : List Tx) :
    scoreRepayment txs =
      repaymentFromCounts (borrowCount txs) (repayCount txs) (liquidationCount txs) := rfl


/-! ## Concrete scenarios -/

/-- Scenario A facts: no first transaction, zero counters, zero balance,
empty transaction list, no unique counterparties. -/
def defaultFacts : WalletFacts :=
  { daysOld := none
    txCount := 0
    balance := 0
    transactions := []
    uniqueAddresses := 0 }

lemma rawScore_default : rawScore defaultFacts = 481 := by
  have hrep : scoreRepayment defaultFacts.transactions = 0 := rfl
  rw [rawScore, hrep]
  norm_num [defaultFacts, scoreAge, scoreTransactions, scoreBalance, scoreDeFiExtras]

lemma calculate_default : calculate defaultFacts = ⟨481, 75, "D", .high⟩ := by
  have hscore : finalScore defaultFacts = 481 := by
    rw [finalScore_eq_jsRound, rawScore_default, jsRound]
    norm_num [Int.floor_eq_iff]
  rw [calculate, hscore]
  norm_num [gradeOf, riskOf, accuracyOf, defaultFacts]

/-- Scenario B transaction list: 20 borrow-method, 20 repay-method, and
no liquidation-method transactions. -/
def scenarioBTxs : List Tx :=
  List.replicate 20 ⟨"bh", 1, some "borrow"⟩ ++ List.replicate 20 ⟨"rh", 1, some "repay"⟩

/-- Scenario B facts: age 800 days, 2500 transactions, balance 6000,
30 unique counterparties, and the 20/20/0 DeFi transaction list. -/
def scenarioBFacts : WalletFacts :=
  { daysOld := some 800
    txCount := 2500
    balance := 6000
    transactions := scenarioBTxs
    uniqueAddresses := 30 }

lemma repayment_scenarioB : scoreRepayment scenarioBTxs = 100 := by
  rw [scoreRepayment_eq_counts]
  have hb : borrowCount scenarioBTxs = 20 := by decide
  have hr : repayCount scenarioBTxs = 20 := by decide
  have hl : liquidationCount scenarioBTxs = 0 := by decide
  rw [hb, hr, hl, repaymentFromCounts]
  norm_num

lemma rawScore_scenarioB : rawScore scenarioBFacts = 593 := by
  have hrep : scoreRepayment scenarioBFacts.transactions = 100 := repayment_scenarioB
  rw [rawScore, hrep]
  norm_num [scenarioBFacts, scoreAge, scoreTransactions, scoreBalance, scoreDeFiExtras]

lemma calculate_scenarioB : calculate scenarioBFacts = ⟨593, 99, "C", .medium⟩ := by
  have hscore : finalScore scenarioBFacts = 593 := by
    rw [finalScore_eq_jsRound, rawScore_scenarioB, jsRound]
    norm_num [Int.floor_eq_iff]
  rw [calculate, hscore]
  norm_num [gradeOf, riskOf, accuracyOf, scenarioBFacts]

/-! ## Claim theorems -/

/-- C1: for every WalletFacts input, the final score the engine returns
equals `round(clamp(500 + age*0.15 + tx*0.20 + balance*0.25 +
repayment*0.30 + diversity*0.10, 0, 1000))` with the §4.3 sub-scores;
in particular the code's `clamp(round(raw))` agrees with the spec's
`round(clamp(raw))` on every input. -/
theorem claim1_final_score_formula (f : WalletFacts) :
    (calculate f).score = jsRound (max 0 (min 1000 (rawScore f))) := by
  obtain ⟨h1, h2⟩ := rawScore_bounds f
  have hclamp : max 0 (min 1000 (rawScore f)) = rawScore f := by
    rw [min_eq_right (by linarith), max_eq_right (by linarith)]
  rw [hclamp]
  exact finalScore_eq_jsRound f

/-- C2 counterexample: on the all-default facts the engine returns
score 481, not the claimed base score 500. -/
theorem claim2_counterexample :
    (calculate defaultFacts).score = 481 ∧ (calculate defaultFacts).score ≠ 500 := by
  rw [calculate_default]
  exact ⟨rfl, by decide⟩

/-- C2 amended: the all-default WalletFacts produce score 481 (the base
500 lowered by the default penalties −7.5 − 4 − 7.5), grade "D", risk
tier high, and accuracy 75. -/
theorem claim2_default_report :
    calculate defaultFacts = ⟨481, 75, "D", .high⟩ := calculate_default

/-- C3: every final score lies in [436, 593], so the clamp bounds 0 and
1000 are never reached, the grade is always "C" or "D", and the risk
tier is always medium or high. -/
theorem claim3_score_range (f : WalletFacts) :
    436 ≤ (calculate f).score ∧ (calculate f).score ≤ 593 ∧
    ((calculate f).grade = "C" ∨ (calculate f).grade = "D") ∧
    ((calculate f).riskLevel = .medium ∨ (calculate f).riskLevel = .high) := by
  have hb := jsRound_rawScore_bounds f
  have hs : 436 ≤ finalScore f ∧ finalScore f ≤ 593 := by
    rw [finalScore_eq_jsRound]; exact hb
  refine ⟨hs.1, hs.2, ?_, ?_⟩
  · show gradeOf (finalScore f) = "C" ∨ gradeOf (finalScore f) = "D"
    unfold gradeOf
    split
    · omega
    · split
      · omega
      · split
        · omega
        · split
          · omega
          · split
            · omega
            · split
              · exact Or.inl rfl
              · split
                · exact Or.inr rfl
                · omega
  · show riskOf (finalScore f) = .medium ∨ riskOf (finalScore f) = .high
    unfold riskOf
    split
    · omega
    · split
      · omega
      · split
        · omega
        · split
          · exact Or.inl rfl
          · split
            · exact Or.inl rfl
            · split
              · exact Or.inl rfl
              · split
                · exact Or.inr rfl
                · exact Or.inr rfl

/-- C4 counterexample: on the Scenario B facts the engine's grade is
"C", not in the claimed {A-, A, A+} band. -/
theorem claim4_counterexample :
    (calculate scenarioBFacts).grade = "C" ∧
    (calculate scenarioBFacts).grade ≠ "A-" ∧
    (calculate scenarioBFacts).grade ≠ "A" ∧
    (calculate scenarioBFacts).grade ≠ "A+" := by
  rw [calculate_scenarioB]
  refine ⟨rfl, by decide, by decide, by decide⟩

/-- C4 amended: on the Scenario B facts the five sub-scores are
100/100/100/100/30, the raw weighted score is 593, and per the
documented mapping the final score 593 yields grade "C" and risk
medium (not the A band). -/
theorem claim4_scenarioB_report :
    scoreAge scenarioBFacts.daysOld = 100 ∧
    scoreTransactions scenarioBFacts.txCount = 100 ∧
    scoreBalance scenarioBFacts.balance = 100 ∧
    scoreRepayment scenarioBFacts.transactions = 100 ∧
    scoreDeFiExtras scenarioBFacts.uniqueAddresses = 30 ∧
    rawScore scenarioBFacts = 593 ∧
    calculate scenarioBFacts = ⟨593, 99, "C", .medium⟩ := by
  refine ⟨?_, ?_, ?_, repayment_scenarioB, ?_, rawScore_scenarioB, calculate_scenarioB⟩
  · norm_num [scenarioBFacts, scoreAge]
  · norm_num [scenarioBFacts, scoreTransactions]
  · norm_num [scenarioBFacts, scoreBalance]
  · norm_num [scenarioBFacts, scoreDeFiExtras]

/-- C6: however extreme the sub-scores, the final score is an integer
in [0, 1000] inclusive on every path. -/
theorem claim6_clamp_invariant (f : WalletFacts) :
    0 ≤ (calculate f).score ∧ (calculate f).score ≤ 1000 := by
  show 0 ≤ finalScore f ∧ finalScore f ≤ 1000
  unfold finalScore
  omega

/-! ## C5: the repayment rule as the spec words it -/

/-- Modelled from the spec wording of the repayment rule: classify
directly over the whole transaction list by the three method keywords
(no intermediate DeFi filter), then apply the documented ratio
branches.  Compared against the source `scoreRepayment`. -/
def specRepayment (transactions : List Tx) : ℚ :=
  let borrowTxs := transactions.filter (methodHas "borrow")
  let repayTxs := transactions.filter (methodHas "repay")
  let liquidationTxs := transactions.filter (methodHas "liquidat")
  if borrowTxs.length = 0 then 0
  else
    let repaymentRatio : ℚ := (repayTxs.length : ℚ) / (borrowTxs.length : ℚ)
    let liquidationRatio : ℚ := (liquidationTxs.length : ℚ) / (borrowTxs.length : ℚ)
    if liquidationRatio = 0 ∧ repaymentRatio ≥ 0.8 then 100
    else if liquidationRatio < 0.1 ∧ repaymentRatio ≥ 0.6 then 60
    else if liquidationRatio < 0.25 then 0
    else max (-150) (-150 * liquidationRatio)

lemma filter_defi_comm (p : Tx → Bool) (hp : ∀ tx, p tx = true → isDefiTx tx = true)
    (txs : List Tx) : (txs.filter isDefiTx).filter p = txs.filter p := by
  rw [List.filter_filter]
  apply List.filter_congr
  intro a _
  cases h : p a
  · simp
  · simp [hp a h]

lemma borrow_implies_defi (tx : Tx) (h : methodHas "borrow" tx = true) :
    isDefiTx tx = true := by simp [isDefiTx, h]

lemma repay_implies_defi (tx : Tx) (h : methodHas "repay" tx = true) :
    isDefiTx tx = true := by simp [isDefiTx, h]

lemma liquidat_implies_defi (tx : Tx) (h : methodHas "liquidat" tx = true) :
    isDefiTx tx = true := by simp [isDefiTx, h]

/-- C5: for every transaction list, the code's repayment sub-score
(computed through the intermediate DeFi-transaction filter, which also
admits "lend" methods) equals the documented rule that classifies
borrow/repay/liquidation transactions directly and applies the
ratio branches. -/
theorem claim5_repayment_rule (txs : List Tx) :
    scoreRepayment txs = specRepayment txs := by
  have hb : (txs.filter isDefiTx).filter (methodHas "borrow") =
      txs.filter (methodHas "borrow") :=
    filter_defi_comm _ borrow_implies_defi txs
  have hr : (txs.filter isDefiTx).filter (methodHas "repay") =
      txs.filter (methodHas "repay") :=
    filter_defi_comm _ repay_implies_defi txs
  have hl : (txs.filter isDefiTx).filter (methodHas "liquidat") =
      txs.filter (methodHas "liquidat") :=
    filter_defi_comm _ liquidat_implies_defi txs
  have hspec : specRepayment txs =
      repaymentFromCounts (txs.filter (methodHas "borrow")).length
        (txs.filter (methodHas "repay")).length
        (txs.filter (methodHas "liquidat")).length := rfl
  rw [scoreRepayment_eq_counts, hspec, borrowCount, repayCount, liquidationCount,
    hb, hr, hl]

/-- C10: the reported accuracy equals
`min(99, 75 + age bonus 10 + transaction bonus 10 + balance bonus 5)`,
is always in [75, 99], and when all three bonuses apply the uncapped
sum is 100 so the cap binds and the accuracy is exactly 99. -/
theorem claim10_accuracy (f : WalletFacts) :
    (calculate f).accuracy =
      min 99 (75 +
        (if f.daysOld.isSome then 10 else 0) +
        (if 0 < f.txCount then 10 else 0) +
        (if 0 < f.balance then 5 else 0)) ∧
    75 ≤ (calculate f).accuracy ∧ (calculate f).accuracy ≤ 99 ∧
    (f.daysOld.isSome = true ∧ 0 < f.txCount ∧ 0 < f.balance →
      75 + 10 + 10 + 5 = (100 : ℤ) ∧ (calculate f).accuracy = 99) := by
  show accuracyOf f = _ ∧ _
  refine ⟨rfl, ?_, ?_, ?_⟩
  · show 75 ≤ accuracyOf f
    unfold accuracyOf
    split_ifs <;> omega
  · show accuracyOf f ≤ 99
    unfold accuracyOf
    split_ifs <;> omega
  · rintro ⟨h1, h2, h3⟩
    refine ⟨rfl, ?_⟩
    show accuracyOf f = 99
    unfold accuracyOf
    rw [if_pos h1, if_pos h2, if_pos h3]
    norm_num

theorem claim10_accuracy_witness : (calculate scenarioBFacts).accuracy = 99 :=
  ((claim10_accuracy scenarioBFacts).2.2.2
    ⟨rfl, by norm_num [scenarioBFacts], by norm_num [scenarioBFacts]⟩).2

/-! ## C9: balance fetch fallback behaviour -/

lemma matchesEvm_startsWith0x (s : String) (h : matchesEvm s = true) :
    startsWith0x s = true := by
  simp only [matchesEvm, Bool.and_eq_true, decide_eq_true_eq] at h
  simp only [startsWith0x, decide_eq_true_eq]
  exact h.1.1

lemma matchesBech32_not_startsWith0x (s : String) (h : matchesBech32 s = true) :
    startsWith0x s = false := by
  simp only [matchesBech32, Bool.and_eq_true, decide_eq_true_eq] at h
  have h2 : s.data.take 2 = ['s', 'e'] := by
    have h3 : s.data.take 2 = (s.data.take 3).take 2 := by
      rw [List.take_take]
      norm_num
    rw [h3, h.1.1.1]
    rfl
  simp [startsWith0x, h2]

lemma fetchWalletBalance_evm_pos (addr : String) (evm : EvmOracle) (native : NativeOracle)
    (h0x : startsWith0x addr = true) (hpos : 0 < fetchEvmBalance evm) :
    fetchWalletBalance addr evm native = (fetchEvmBalance evm, [.evm]) := by
  unfold fetchWalletBalance
  rw [h0x]
  simp [hpos]

lemma fetchWalletBalance_evm_zero (addr : String) (evm : EvmOracle) (native : NativeOracle)
    (h0x : startsWith0x addr = true) (hz : ¬ 0 < fetchEvmBalance evm) :
    fetchWalletBalance addr evm native = (nativeBalance native, [.evm, .native]) := by
  unfold fetchWalletBalance
  rw [h0x]
  simp [hz]

lemma fetchWalletBalance_native_only (addr : String) (evm : EvmOracle) (native : NativeOracle)
    (h0x : startsWith0x addr = false) :
    fetchWalletBalance addr evm native = (nativeBalance native, [.native]) := by
  unfold fetchWalletBalance
  rw [h0x]
  simp

/-- C9: for an EVM-format address the balance fetch issues the EVM
query first; when that yields zero (including any failure, which is
absorbed as zero) it falls back to the native-chain query; when both
yield nothing the balance is 0 and the balance sub-score is −30.  For a
Bech32-format address only the native-chain query is issued. -/
theorem claim9_balance_fallback (addr : String) (evm : EvmOracle) (native : NativeOracle) :
    (matchesEvm addr = true →
      (fetchWalletBalance addr evm native).2.head? = some .evm ∧
      (fetchEvmBalance evm = 0 →
        (fetchWalletBalance addr evm native).2 = [.evm, .native] ∧
        (fetchWalletBalance addr evm native).1 = nativeBalance native) ∧
      (fetchEvmBalance evm = 0 ∧ (native = none ∨ native = some none) →
        (fetchWalletBalance addr evm native).1 = 0 ∧
        scoreBalance (fetchWalletBalance addr evm native).1 = -30)) ∧
    (matchesBech32 addr = true →
      (fetchWalletBalance addr evm native).2 = [.native] ∧
      (fetchWalletBalance addr evm native).1 = nativeBalance native) := by
  constructor
  · intro hevm
    have h0x := matchesEvm_startsWith0x addr hevm
    by_cases hpos : 0 < fetchEvmBalance evm
    · rw [fetchWalletBalance_evm_pos addr evm native h0x hpos]
      refine ⟨rfl, fun hz => absurd hpos (by rw [hz]; norm_num), fun hz => ?_⟩
      exact absurd hpos (by rw [hz.1]; norm_num)
    · rw [fetchWalletBalance_evm_zero addr evm native h0x hpos]
      refine ⟨rfl, fun _ => ⟨rfl, rfl⟩, fun hz => ?_⟩
      have hnat : nativeBalance native = 0 := by
        rcases hz.2 with h | h <;> rw [h] <;> rfl
      refine ⟨hnat, ?_⟩
      show scoreBalance (nativeBalance native) = -30
      rw [hnat]
      norm_num [scoreBalance]
  · intro hbech
    have h0x := matchesBech32_not_startsWith0x addr hbech
    rw [fetchWalletBalance_native_only addr evm native h0x]
    exact ⟨rfl, rfl⟩

theorem claim9_balance_fallback_witness :
    (fetchWalletBalance "0x0123456789abcdef0123456789abcdef01234567" none none).1 = 0 ∧
    scoreBalance (fetchWalletBalance
      "0x0123456789abcdef0123456789abcdef01234567" none none).1 = -30 ∧
    (fetchWalletBalance "0x0123456789abcdef0123456789abcdef01234567" none none).2 =
      [.evm, .native] := by
  have h := claim9_balance_fallback
    "0x0123456789abcdef0123456789abcdef01234567" none none
  have hm : matchesEvm "0x0123456789abcdef0123456789abcdef01234567" = true := by decide
  have hz : fetchEvmBalance none = 0 := rfl
  obtain ⟨hq, hfb, hboth⟩ := h.1 hm
  obtain ⟨hb0, hbs⟩ := hboth ⟨hz, Or.inl rfl⟩
  exact ⟨hb0, hbs, (hfb hz).1⟩

/-! ## C7: address validation characterization -/

/-- Spec-side reading of the Bech32 pattern: the string is "sei"
followed by 39 to 59 lowercase-alphanumeric characters. -/
def Bech32Spec (s : String) : Prop :=
  ∃ t : List Char, s.data = 's' :: 'e' :: 'i' :: t ∧
    39 ≤ t.length ∧ t.length ≤ 59 ∧
    ∀ c ∈ t, ('a' ≤ c ∧ c ≤ 'z') ∨ ('0' ≤ c ∧ c ≤ '9')

/-- Spec-side reading of the EVM pattern: the string is "0x" followed
by exactly 40 hexadecimal characters. -/
def EvmSpec (s : String) : Prop :=
  ∃ t : List Char, s.data = '0' :: 'x' :: t ∧ t.length = 40 ∧
    ∀ c ∈ t, ('a' ≤ c ∧ c ≤ 'f') ∨ ('A' ≤ c ∧ c ≤ 'F') ∨ ('0' ≤ c ∧ c ≤ '9')

lemma isBech32Char_iff (c : Char) :
    isBech32Char c = true ↔ ('a' ≤ c ∧ c ≤ 'z') ∨ ('0' ≤ c ∧ c ≤ '9') := by
  simp [isBech32Char]

lemma isHexChar_iff (c : Char) :
    isHexChar c = true ↔
      ('a' ≤ c ∧ c ≤ 'f') ∨ ('A' ≤ c ∧ c ≤ 'F') ∨ ('0' ≤ c ∧ c ≤ '9') := by
  simp [isHexChar, or_assoc]

lemma matchesBech32_iff (s : String) : matchesBech32 s = true ↔ Bech32Spec s := by
  simp only [matchesBech32, Bool.and_eq_true, decide_eq_true_eq, List.all_eq_true]
  constructor
  · rintro ⟨⟨⟨htake, h39⟩, h59⟩, hall⟩
    refine ⟨s.data.drop 3, ?_, h39, h59, fun c hc => (isBech32Char_iff c).mp (hall c hc)⟩
    have := (List.take_append_drop 3 s.data).symm
    rw [htake] at this
    exact this
  · rintro ⟨t, hdata, h39, h59, hc⟩
    rw [hdata]
    refine ⟨⟨⟨rfl, by simpa using h39⟩, by simpa using h59⟩, ?_⟩
    intro c hc2
    rw [List.drop_succ_cons, List.drop_succ_cons, List.drop_succ_cons, List.drop_zero] at hc2
    exact (isBech32Char_iff c).mpr (hc c hc2)

lemma matchesEvm_iff (s : String) : matchesEvm s = true ↔ EvmSpec s := by
  simp only [matchesEvm, Bool.and_eq_true, decide_eq_true_eq, List.all_eq_true]
  constructor
  · rintro ⟨⟨htake, h40⟩, hall⟩
    refine ⟨s.data.drop 2, ?_, h40, fun c hc => (isHexChar_iff c).mp (hall c hc)⟩
    have := (List.take_append_drop 2 s.data).symm
    rw [htake] at this
    exact this
  · rintro ⟨t, hdata, h40, hc⟩
    rw [hdata]
    refine ⟨⟨rfl, by simpa using h40⟩, ?_⟩
    intro c hc2
    rw [List.drop_succ_cons, List.drop_succ_cons, List.drop_zero] at hc2
    exact (isHexChar_iff c).mpr (hc c hc2)

/-- C7: a string passes `isValidSeiAddress` exactly when it matches the
Bech32 pattern (prefix "sei" plus 39–59 lowercase alphanumerics) or the
EVM pattern ("0x" plus exactly 40 hex digits); a string matching
neither fails validation and `calculateCreditScore` returns the
`InvalidAddressFormat` error whatever the fetched facts are (so no
fetched data is ever consulted). -/
theorem claim7_address_validation (s : String) (f : WalletFacts) :
    (isValidSeiAddress s = true ↔ Bech32Spec s ∨ EvmSpec s) ∧
    (¬(Bech32Spec s ∨ EvmSpec s) →
      isValidSeiAddress s = false ∧
      calculateCreditScore s f = .error .invalidAddressFormat) := by
  have hiff : isValidSeiAddress s = true ↔ Bech32Spec s ∨ EvmSpec s := by
    rw [isValidSeiAddress, Bool.or_eq_true, matchesBech32_iff, matchesEvm_iff]
  refine ⟨hiff, fun hnot => ?_⟩
  have hfalse : isValidSeiAddress s = false := by
    cases hval : isValidSeiAddress s
    · rfl
    · exact absurd (hiff.mp hval) hnot
  refine ⟨hfalse, ?_⟩
  rw [calculateCreditScore, hfalse]
  rfl

theorem claim7_address_validation_witness :
    isValidSeiAddress "not-an-address" = false ∧
    calculateCreditScore "not-an-address" defaultFacts = .error .invalidAddressFormat ∧
    isValidSeiAddress "0x0123456789abcdef0123456789abcdef01234567" = true := by
  have h := claim7_address_validation "not-an-address" defaultFacts
  have h2 := claim7_address_validation
    "0x0123456789abcdef0123456789abcdef01234567" defaultFacts
  have hnot : ¬(Bech32Spec "not-an-address" ∨ EvmSpec "not-an-address") := by
    intro hbe
    exact absurd (h.1.mpr hbe) (by decide)
  obtain ⟨hf, herr⟩ := h.2 hnot
  refine ⟨hf, herr, ?_⟩
  have hev : EvmSpec "0x0123456789abcdef0123456789abcdef01234567" := by
    refine ⟨"0123456789abcdef0123456789abcdef01234567".data, ?_, by decide, by decide⟩
    rfl
  exact h2.1.mpr (Or.inr hev)

/-! ## C8: fallback transaction merge -/

lemma mergeStep_none (acc : List Tx) : mergeStep acc none = acc := rfl

lemma mergeStep_hash_nodup (acc : List Tx) (r : Option (List Tx))
    (hacc : (acc.map Tx.txhash).Nodup)
    (hr : ∀ txs, r = some txs → (txs.map Tx.txhash).Nodup) :
    ((mergeStep acc r).map Tx.txhash).Nodup := by
  cases r with
  | none => exact hacc
  | some txs =>
    have htxs := hr txs rfl
    rw [mergeStep]
    split
    · rw [List.map_append, List.nodup_append]
      refine ⟨hacc, ?_, ?_⟩
      · exact List.Nodup.sublist ((List.filter_sublist txs).map Tx.txhash) htxs
      · intro a ha hb
        obtain ⟨tx, htxmem, rfl⟩ := List.mem_map.mp hb
        obtain ⟨e, hemem, he⟩ := List.mem_map.mp ha
        obtain ⟨htx_in, hp⟩ := List.mem_filter.mp htxmem
        rw [Bool.not_eq_eq_eq_not, Bool.not_true, List.any_eq_false] at hp
        have hne := hp e hemem
        exact hne (beq_iff_eq.mpr he)
    · exact hacc

lemma foldl_mergeStep_nodup (results : List (Option (List Tx)))
    (h : ∀ txs, some txs ∈ results → (txs.map Tx.txhash).Nodup) :
    ∀ acc, (acc.map Tx.txhash).Nodup →
      ((results.foldl mergeStep acc).map Tx.txhash).Nodup := by
  induction results with
  | nil => intro acc hacc; exact hacc
  | cons r rs ih =>
    intro acc hacc
    rw [List.foldl_cons]
    apply ih (fun txs hmem => h txs (List.mem_cons_of_mem r hmem))
    exact mergeStep_hash_nodup acc r hacc
      (fun txs hreq => h txs (by rw [hreq]; exact List.mem_cons_self _ _))

/-- C8 counterexample: a fallback query whose own result list repeats
a hash defeats the dedup — the filter only checks against previously
accumulated queries, not within the current one.  Instantiated with
the code's five event-filter queries: the first returns the same hash
twice, the other four fail. -/
theorem claim8_counterexample :
    ¬ ((fallbackTransactions
      [some [⟨"h1", 5, none⟩, ⟨"h1", 5, none⟩], none, none, none, none] 100).map
      Tx.txhash).Nodup := by decide

/-- C8 amended: the merged fallback result is always sorted by block
height descending, holds at most `limit` entries, and a failed query
(`none`) drops out of the merge without affecting the other queries;
the merged hashes are pairwise distinct provided each individual query
result list repeats no hash (the cross-query dedup does not look inside
a single query's list). -/
theorem claim8_fallback_merge (results : List (Option (List Tx))) (limit : Nat) :
    ((∀ txs, some txs ∈ results → (txs.map Tx.txhash).Nodup) →
      ((fallbackTransactions results limit).map Tx.txhash).Nodup) ∧
    List.Sorted heightDesc (fallbackTransactions results limit) ∧
    (fallbackTransactions results limit).length ≤ limit ∧
    (∀ pre post, results = pre ++ none :: post →
      fallbackTransactions results limit = fallbackTransactions (pre ++ post) limit) := by
  refine ⟨fun h => ?_, ?_, ?_, ?_⟩
  · have h1 := foldl_mergeStep_nodup results h [] (by simp)
    have hperm := (List.perm_insertionSort heightDesc (results.foldl mergeStep [])).map
      Tx.txhash
    have h2 := hperm.nodup_iff.mpr h1
    rw [fallbackTransactions, List.map_take]
    exact List.Nodup.sublist (List.take_sublist _ _) h2
  · rw [fallbackTransactions]
    exact List.Pairwise.sublist (List.take_sublist _ _)
      (List.sorted_insertionSort heightDesc _)
  · rw [fallbackTransactions, List.length_take]
    exact min_le_left _ _
  · intro pre post heq
    rw [heq, fallbackTransactions, fallbackTransactions, List.foldl_append,
      List.foldl_append, List.foldl_cons, mergeStep_none]

theorem claim8_fallback_merge_witness :
    ((fallbackTransactions
      [some [⟨"a", 1, none⟩], none, some [⟨"b", 2, none⟩], none, none] 10).map
      Tx.txhash).Nodup ∧
    List.Sorted heightDesc
      (fallbackTransactions
        [some [⟨"a", 1, none⟩], none, some [⟨"b", 2, none⟩], none, none] 10) ∧
    (fallbackTransactions
      [some [⟨"a", 1, none⟩], none, some [⟨"b", 2, none⟩], none, none] 10).length
      ≤ 10 := by
  have h := claim8_fallback_merge
    [some [⟨"a", 1, none⟩], none, some [⟨"b", 2, none⟩], none, none] 10
  refine ⟨h.1 ?_, h.2.1, h.2.2.1⟩
  intro txs hmem
  simp only [List.mem_cons, List.not_mem_nil, or_false] at hmem
  rcases hmem with hmem | hmem | hmem | hmem | hmem
  · rw [Option.some_inj.mp hmem]
    decide
  · exact absurd hmem (Option.some_ne_none txs)
  · rw [Option.some_inj.mp hmem]
    decide
  · exact absurd hmem (Option.some_ne_none txs)
  · exact absurd hmem (Option.some_ne_none txs)

end SeiScore
